import Mathlib

/-!
Shallow embedding of the Exapunks solitaire bot game logic
(`exa_logic.py`): card compatibility, stacks with collapse/lock
semantics, the board (`Game`) with canonical hashing, move
enumeration, scoring, encoded-board parsing, per-node expansion and
the greedy queue search, together with theorems checking the
specification's claims against these definitions.
-/

namespace Exa

/-- Capacity class of a pile: the Python code stores the strings
"stack" and "freecell" in `card_type`; these are the only two values
that occur. -/
inductive CardType
  | stack
  | freecell
deriving DecidableEq

/-- Contents of a `Stack`: in Python `self.stack` is either a list of
card strings or the sentinel string "X" after a collapse. -/
inductive Contents
  | cards (l : List String)
  | collapsed
deriving DecidableEq

/-- One pile of cards, mirroring the Python `Stack` object.
`past_cards` starts as the empty string and remembers the collapsed
face card (Python stores the card string, or an int after
`exact_setup`, rendered here through its decimal string). -/
structure Stack where
  card_type : CardType
  locked : Bool
  stack : Contents
  past_cards : String
deriving DecidableEq

instance : Inhabited Stack := ⟨⟨CardType.stack, false, Contents.cards [], ""⟩⟩

namespace Stack

/-- Python `Stack.face_values`. -/
def face_values : List Char := ['H', 'S', 'C', 'D']

/-- Python `Stack.num_values`. -/
def num_values : List Char := ['6', '7', '8', '9']

/-- Python `Stack.face_cards`. -/
def face_cards : List String := ["HH", "SS", "CC", "DD"]

/-- Python `Stack.compatible(top, bottom)`: can `bottom` be placed
under `top`?  Malformed (non-two-character) codes make Python raise
while unpacking; the embedding returns `false` there, a difference
visible only outside the valid card alphabet. -/
def compatible (top bottom : String) : Bool :=
  match top.toList, bottom.toList with
  | [top_str, top_suit], [bottom_str, bottom_suit] =>
    if top_suit == bottom_suit && face_values.contains top_str then true
    else if face_values.contains top_str || face_values.contains bottom_str then false
    else
      let top_number : Nat := if num_values.contains top_str then top_str.toNat - 48 else 10
      let bottom_number : Nat := if num_values.contains bottom_str then bottom_str.toNat - 48 else 10
      bottom_number == top_number - 1 && top_suit != bottom_suit
  | _, _ => false

/-- Python truthiness of `self.stack`: a non-empty list or the string
"X" are truthy, the empty list is falsy. -/
def hasCards (s : Stack) : Bool :=
  match s.stack with
  | Contents.cards l => !l.isEmpty
  | Contents.collapsed => true

/-- Python `len(self.stack)`: length of the list, or 1 for the
one-character sentinel string "X". -/
def stackLen (s : Stack) : Nat :=
  match s.stack with
  | Contents.cards l => l.length
  | Contents.collapsed => 1

/-- Python `self.stack[-1]`: last card of the list, or the
one-character string "X" on the sentinel. -/
def lastCard (s : Stack) : String :=
  match s.stack with
  | Contents.cards l => l.getLastD ""
  | Contents.collapsed => "X"

/-- Python `Stack.hash()`: capacity-class letter followed by the
concatenated cards, or by "X[" rank "]" for a collapsed stack. -/
def hash (s : Stack) : String :=
  let type_str := match s.card_type with
    | CardType.stack => "S"
    | CardType.freecell => "F"
  let card_str := match s.stack with
    | Contents.cards l => String.join l
    | Contents.collapsed => "X[" ++ s.past_cards ++ "]"
  type_str ++ card_str

/-- Python `Stack.is_move_to_legal(card)`. -/
def is_move_to_legal (s : Stack) (card : List String) : Bool :=
  if s.locked then false
  else if s.card_type == CardType.freecell && s.hasCards then false
  else if s.card_type == CardType.freecell && card.length > 1 then false
  else if s.card_type == CardType.stack && s.hasCards &&
          !(compatible s.lastCard (card.headD "")) then false
  else true

/-- Python `Stack.is_move_from_legal()`. -/
def is_move_from_legal (s : Stack) : Bool :=
  !s.locked && s.hasCards

/-- Helper for `which_cards_moving`, walking the card list from the
top (the list is passed reversed): take cards while each next-lower
card is compatible under the one above it, mirroring the Python loop
over `range(len(self.stack) - 2, -1, -1)`. -/
def runRev : List String → List String
  | [] => []
  | [a] => [a]
  | a :: b :: rest => if !(compatible b a) then [a] else a :: runRev (b :: rest)

/-- Python `Stack.which_cards_moving()`: the maximal movable top run.
On the collapsed sentinel the Python code returns `["X"]` (the last
character of "X", with an empty loop range). -/
def which_cards_moving (s : Stack) : List String :=
  match s.stack with
  | Contents.cards l => (runRev l.reverse).reverse
  | Contents.collapsed => ["X"]

/-- Collapse test performed at the end of Python
`Stack.resolve_move_to`: the whole stack is four copies of its first
card and that card is a face card. -/
def collapseCond (l : List String) : Bool :=
  match l with
  | h :: _ => l.length == 4 && l == [h, h, h, h] && face_cards.contains h
  | [] => false

/-- Python `Stack.resolve_move_to(card)`: `none` models the raised
`Exception`; on success the appended stack, collapsed and locked when
the collapse condition fires. -/
def resolve_move_to (s : Stack) (card : List String) : Option Stack :=
  if !(s.is_move_to_legal card) then none
  else
    match s.stack with
    | Contents.collapsed => none
    | Contents.cards l =>
      let l2 := l ++ card
      if collapseCond l2 then
        some { s with locked := true, past_cards := l2.headD "", stack := Contents.collapsed }
      else
        some { s with stack := Contents.cards l2 }

/-- Python `Stack.resolve_move_from(max_stack)`: returns the removed
cards and the remaining stack, or `none` for the raised `Exception`.
With `max_stack = 0` the whole top run moves, otherwise the last
`max_stack` cards (Python `self.stack[-max_stack:]`). -/
def resolve_move_from (s : Stack) (max_stack : Nat) : Option (List String × Stack) :=
  if !s.is_move_from_legal then none
  else
    match s.stack with
    | Contents.collapsed => some (["X"], { s with stack := Contents.cards [] })
    | Contents.cards l =>
      let card_move := if max_stack == 0 then (runRev l.reverse).reverse
                       else l.drop (l.length - max_stack)
      some (card_move, { s with stack := Contents.cards (l.take (l.length - card_move.length)) })

/-- Helper for `num_cards_trapped`, walking the card list from the
top (the list is passed reversed): the Python generator scans `j`
from `len - 2` down to `0` and yields `j + 1` at the first
incompatible adjacent pair, defaulting to `0`. -/
def trappedRev : List String → Nat
  | [] => 0
  | [_] => 0
  | a :: b :: rest => if !(compatible b a) then (b :: rest).length else trappedRev (b :: rest)

/-- The `num_cards_trapped` expression of Python `Game.get_score`:
the number of cards lying below the first break in the top run. -/
def num_cards_trapped (l : List String) : Nat :=
  trappedRev l.reverse

/-- Python `Stack.is_complete()`: collapsed, or one of the two
finished descending alternating-color sequences. -/
def is_complete (s : Stack) : Bool :=
  match s.stack with
  | Contents.collapsed => true
  | Contents.cards l =>
    l == ["0R", "9B", "8R", "7B", "6R"] || l == ["0B", "9R", "8B", "7R", "6B"]

end Stack

/-- The board, mirroring the Python `Game` object.  `score` is the
memoization cell written by `get_score`. -/
structure Game where
  stacks' : List Stack
  card_stacks : Nat
  depth : Nat
  max_depth : Nat
  move_history : List (Nat × Nat)
  score : Int
deriving DecidableEq

namespace Game

/-- Python `Game.hash()`: the per-stack hashes each suffixed with "/",
sorted lexicographically (Python `list.sort`), then concatenated. -/
def hash (g : Game) : String :=
  String.join (List.insertionSort (fun a b => a ≤ b)
    (g.stacks'.map (fun s => s.hash ++ "/")))

/-- One iteration of the scoring loop in Python `Game.get_score`,
including its `score = 10` accumulator reset for a finished
five-card number stack (dead code in the source, kept faithfully). -/
def score_step (score : Int) (i : Stack) : Int :=
  if i.is_complete then score + 20
  else if i.card_type == CardType.stack && !i.hasCards then score + 10
  else if i.card_type == CardType.stack && i.hasCards then
    match i.stack with
    | Contents.cards l =>
      if l.length == 5 && (l == ["0R", "9B", "8R", "7B", "6R"] ||
                           l == ["0B", "9R", "8B", "7R", "6B"]) then 10
      else score + 5 - (Stack.num_cards_trapped l : Int)
    | Contents.collapsed => score + 5
  else score

/-- The scoring loop of Python `Game.get_score` without the
memoization shortcut. -/
def computed_score (ss : List Stack) : Int :=
  ss.foldl score_step 0

/-- Python `Game.get_score(override)`: returns the cached score when
it is non-zero and no override is requested, otherwise recomputes. -/
def get_score (g : Game) (override : Bool) : Int :=
  if g.score ≠ 0 && !override then g.score else computed_score g.stacks'

/-- Python `Game.is_complete()`: eight stacks report complete. -/
def is_complete (g : Game) : Bool :=
  g.stacks'.countP Stack.is_complete == 8

/-- The per-pair test of the inner loop of Python
`Game.enumerate_moves` (destination `i`, origin `j`): skip self moves
and the exact inverse of the previous move, then require a legal
origin and a destination that accepts the run's bottom card. -/
def moveOk (g : Game) (i j : Nat) : Bool :=
  !(j == i) &&
  !(g.move_history.getLast? == some (i, j)) &&
  ((g.stacks'.getD j default).is_move_from_legal &&
   (g.stacks'.getD i default).is_move_to_legal
     [((g.stacks'.getD j default).which_cards_moving).headD ""])

/-- The inner loop of Python `Game.enumerate_moves` for one
destination `i`: nothing when the destination is locked, otherwise
the `(j, i)` pairs for every passing origin `j`. -/
def enumBlock (g : Game) (i : Nat) : List (Nat × Nat) :=
  if (g.stacks'.getD i default).locked then []
  else (List.range g.stacks'.length).filterMap (fun j =>
    if moveOk g i j then some (j, i) else none)

/-- Python `Game.enumerate_moves()`: nested loops, destination `i`
outer (skipping locked destinations), origin `j` inner, collecting
`(j, i)` pairs. -/
def enumerate_moves (g : Game) : List (Nat × Nat) :=
  (List.range g.stacks'.length).flatMap (enumBlock g)

/-- Python `Game.is_dead()`. -/
def is_dead (g : Game) : Bool :=
  g.enumerate_moves.length == 0

/-- Python chunking of an encoded stack token body into two-character
card codes, `[stack[1+i:1+i+2] for i in range(0, len(stack[1:]), 2)]`
(the last chunk may be a single character). -/
def chunk2 : List Char → List String
  | [] => []
  | [a] => [String.mk [a]]
  | a :: b :: rest => String.mk [a, b] :: chunk2 rest

/-- Python `str.split(sep)` restricted to a one-character separator,
keeping empty fields, written on the character list. -/
def splitOnChar (sep : Char) : List Char → List (List Char)
  | [] => [[]]
  | c :: rest =>
    let r := splitOnChar sep rest
    if c == sep then [] :: r
    else
      match r with
      | h :: t => (c :: h) :: t
      | [] => [[c]]

/-- Python `int(text)` as used by `exact_setup`, modelled as a plain
decimal-digit parse (`none` for the raised `ValueError`; the signs,
blanks and underscores `int` also accepts never parse successfully on
the slices `exact_setup` takes from real hashes). -/
def parseInt? (cs : List Char) : Option Nat :=
  if cs ≠ [] ∧ cs.all Char.isDigit then
    some (cs.foldl (fun n c => n * 10 + (c.toNat - 48)) 0)
  else none

/-- One stack token of Python `Game.exact_setup`: capacity class from
the first character, then either no cards, plain card codes, or the
collapsed form whose remembered rank goes through Python `int`. -/
def parseStackToken (t : String) : Except String Stack :=
  let cs := t.toList
  let stack_type := if cs.headD ' ' == 'S' then CardType.stack else CardType.freecell
  if cs.length == 1 then
    Except.ok ⟨stack_type, false, Contents.cards [], ""⟩
  else if !((cs.drop 1).headD ' ' == 'X') then
    Except.ok ⟨stack_type, false, Contents.cards (chunk2 (cs.drop 1)), ""⟩
  else
    match parseInt? ((cs.drop 3).take 2) with
    | none => Except.error "ValueError: invalid literal for int"
    | some n => Except.ok ⟨stack_type, true, Contents.collapsed, toString n⟩

/-- Python `Game.exact_setup(game_hash)`: split on "/", drop empty
tokens, parse each token; the result overwrites the game's stacks, so
the embedding returns the decoded stack list (`Except.error` models
the raised `ValueError`). -/
def exact_setup (game_hash : String) : Except String (List Stack) :=
  (((splitOnChar '/' game_hash.toList).map String.mk).filter
    (fun x => x.length != 0)).mapM parseStackToken

/-- The move application performed inside Python `Game.solve` (and
`Game.play_game`): remove from origin `i` (restricted to one card
when destination `j` is a freecell), then append to destination `j`.
`Except.error` models the exceptions raised by the resolve calls. -/
def apply_move (g : Game) (m : Nat × Nat) : Except String Game :=
  let i := m.1
  let j := m.2
  let maxs : Nat := if (g.stacks'.getD j default).card_type == CardType.freecell then 1 else 0
  match (g.stacks'.getD i default).resolve_move_from maxs with
  | none => Except.error "Trying to force illegal move"
  | some (cards_move, si) =>
    let stacks1 := g.stacks'.set i si
    match (stacks1.getD j default).resolve_move_to cards_move with
    | none => Except.error "Trying to force illegal move"
    | some sj => Except.ok { g with stacks' := stacks1.set j sj }

/-- Python `Game.solve()`: immediate children of a node.  `ok none`
models the Python `None` returns (depth cutoff, dead non-root node,
or no children at depth > 0); `error` models the two raises. -/
def solve (g : Game) : Except String (Option (List Game)) :=
  if g.depth > g.max_depth then Except.ok none
  else if g.is_complete then Except.error "Trying to solve complete game."
  else if g.is_dead && g.depth > 0 then Except.ok none
  else do
    let results ← g.enumerate_moves.mapM (fun move => do
      let new_game ← apply_move g move
      pure { new_game with
              depth := new_game.depth + 1,
              move_history := new_game.move_history ++ [move],
              score := computed_score new_game.stacks' })
    if g.depth == 0 && results.isEmpty then Except.error "Impossible to solve game"
    else if results.isEmpty then Except.ok none
    else Except.ok (some results)

/-- The replay loop of Python `Game.play_game`: each move is removed
from origin `i` and appended to destination `j` on a running copy of
the board, recording the source/destination row offsets exactly as
the Python code computes them (the pre-offset reads the origin stack
after removal). -/
def play_moves (g : Game) : List (Nat × Nat) → Except String (List (Nat × Int × Nat × Int))
  | [] => Except.ok []
  | (i, j) :: rest =>
    let maxs : Nat := if (g.stacks'.getD j default).card_type == CardType.freecell then 1 else 0
    match (g.stacks'.getD i default).resolve_move_from maxs with
    | none => Except.error "Trying to force illegal move"
    | some (cards_move, si) =>
      let stacks1 := g.stacks'.set i si
      let y_offset_pre : Int := (si.stackLen : Int) - (cards_move.length : Int)
      let y_offset_post : Int := max 0 (((g.stacks'.getD j default).stackLen : Int) - 1)
      match (stacks1.getD j default).resolve_move_to cards_move with
      | none => Except.error "Trying to force illegal move"
      | some sj =>
        (play_moves { g with stacks' := stacks1.set j sj } rest).map
          (fun fm => (i, y_offset_pre, j, y_offset_post) :: fm)

/-- Python `Game.play_game(moves, print_level)` with the printing
stripped: raises on an empty move list, otherwise replays. -/
def play_game (g : Game) (moves : List (Nat × Nat)) : Except String (List (Nat × Int × Nat × Int)) :=
  if moves.isEmpty then Except.error "No moves for successful game solve?"
  else play_moves g moves

/-- The sort key used by Python `global_solve` when reordering the
queue: ascending in the negated (memoized) score. -/
def key_score (g : Game) : Int := -(get_score g false)

/-- Python `sorted(nodes_to_visit, key=lambda k: -k.get_score())`
(a stable sort). -/
def sortQueue (q : List Game) : List Game :=
  q.mergeSort (fun a b => key_score a ≤ key_score b)

/-- The queue loop of Python `Game.global_solve`, with explicit fuel
in place of the unbounded while loop (`ok none` = fuel exhausted, a
case the Python loop never reports).  `ok (some [])` is the
"Game cannot be solved" return of `[]`; a complete node replays the
move history against the root (Python calls `self.play_game`). -/
def gsLoop (root : Game) : Nat → List String → List Game →
    Except String (Option (List (Nat × Int × Nat × Int)))
  | 0, _, _ => Except.ok none
  | Nat.succ fuel, visited, queue =>
    match queue with
    | [] => Except.ok (some [])
    | current :: rest =>
      if visited.contains current.hash then gsLoop root fuel visited rest
      else
        let visited2 := visited ++ [current.hash]
        if current.is_complete then
          (play_game root current.move_history).map (fun ms => some ms)
        else
          match current.solve with
          | Except.error e => Except.error e
          | Except.ok none => gsLoop root fuel visited2 rest
          | Except.ok (some results) =>
            gsLoop root fuel visited2 (sortQueue (rest ++ results))

/-- Python `Game.global_solve(print_level)` with printing stripped and
fuel made explicit. -/
def global_solve (g : Game) (fuel : Nat) :
    Except String (Option (List (Nat × Int × Nat × Int))) :=
  if g.depth > 0 then Except.error "Should only call this from top level."
  else gsLoop g fuel [] [g]

/-- Python `Game.face_cards`: four copies of each face card. -/
def face_cards : List String := (List.replicate 4 ["HH", "SS", "CC", "DD"]).flatten

/-- Python `Game.number_cards`: two copies of each number card. -/
def number_cards : List String :=
  (List.replicate 2 ["0B", "0R", "9B", "9R", "8B", "8R", "7B", "7R", "6B", "6R"]).flatten

/-- The card count of one stack as the specification counts it:
visible cards, or 4 for a collapsed stack. -/
def cardCount (s : Stack) : Nat :=
  match s.stack with
  | Contents.cards l => l.length
  | Contents.collapsed => 4

/-- Total card count of a board: visible cards plus 4 per collapsed
stack. -/
def boardCount (g : Game) : Nat :=
  (g.stacks'.map cardCount).sum

/-- Reachability invariant of the Python code: a stack whose contents
are the collapsed sentinel is locked (both `resolve_move_to` and
`exact_setup` establish it). -/
def StackWF (s : Stack) : Prop :=
  s.stack = Contents.collapsed → s.locked = true

/-- A board all of whose stacks satisfy `StackWF`. -/
def GameWF (g : Game) : Prop :=
  ∀ s ∈ g.stacks', StackWF s

/-- The deck of valid card codes. -/
def allCards : List String := face_cards ++ number_cards

/-- The ten valid numeric card codes. -/
def numericCodes : List String :=
  ["0B", "0R", "9B", "9R", "8B", "8R", "7B", "7R", "6B", "6R"]

/-- Suit symbol of a card code: its second character. -/
def suitOf (c : String) : Char := c.toList.getD 1 ' '

/-- Color of a numeric card code: its suit symbol (B or R). -/
def colorOf (c : String) : Char := c.toList.getD 1 ' '

/-- Numeric value of a card code: 10 for rank 0, else the digit. -/
def valueOf (c : String) : Nat :=
  if c.toList.getD 0 ' ' == '0' then 10 else (c.toList.getD 0 ' ').toNat - 48

/-- Per-stack score as the specification states it: 20 when
complete/collapsed, 10 for an empty unconstrained stack, otherwise
5 minus the number of cards trapped below the first top-run break for
a non-empty unconstrained stack, and 0 for a single-card-capacity
stack. -/
def scoreSpec (s : Stack) : Int :=
  if s.is_complete then 20
  else if s.card_type == CardType.stack && !s.hasCards then 10
  else if s.card_type == CardType.stack then
    match s.stack with
    | Contents.cards l => 5 - ((l.length - (Stack.runRev l.reverse).length : Nat) : Int)
    | Contents.collapsed => 5
  else 0

/-- An unlocked unconstrained stack holding three hearts face cards. -/
def threeHearts : Stack := ⟨CardType.stack, false, Contents.cards ["HH", "HH", "HH"], ""⟩

/-- A fully collapsed board: eight collapsed stacks and one empty
freecell. -/
def gFullyCollapsed : Game :=
  ⟨(List.range 8).map (fun i =>
      ⟨CardType.stack, true, Contents.collapsed, ["HH", "SS", "CC", "DD"].getD (i % 4) ""⟩) ++
   [⟨CardType.freecell, false, Contents.cards [], ""⟩], 8, 0, 100, [], 0⟩

/-- A board with a single collapsed stack; its hash is "SX[HH]/". -/
def gOneCollapsed : Game :=
  ⟨[⟨CardType.stack, true, Contents.collapsed, "HH"⟩], 1, 0, 100, [], 0⟩

/-- A small live board: a 7B, an 8R and an empty freecell. -/
def gSmall : Game :=
  ⟨[⟨CardType.stack, false, Contents.cards ["7B"], ""⟩,
    ⟨CardType.stack, false, Contents.cards ["8R"], ""⟩,
    ⟨CardType.freecell, false, Contents.cards [], ""⟩], 2, 0, 100, [], 0⟩

/-- The board `gSmall` after moving the 7B onto the 8R. -/
def gSmallMoved : Game :=
  ⟨[⟨CardType.stack, false, Contents.cards [], ""⟩,
    ⟨CardType.stack, false, Contents.cards ["8R", "7B"], ""⟩,
    ⟨CardType.freecell, false, Contents.cards [], ""⟩], 2, 0, 100, [], 0⟩

/-- A depth-zero board with no cards and hence no legal moves. -/
def gStuckRoot : Game :=
  ⟨[⟨CardType.stack, false, Contents.cards [], ""⟩,
    ⟨CardType.freecell, false, Contents.cards [], ""⟩], 1, 0, 100, [], 0⟩

/-- The stacks of `gSmall` in a different left-to-right order. -/
def gSmallShuffled : Game :=
  ⟨[⟨CardType.freecell, false, Contents.cards [], ""⟩,
    ⟨CardType.stack, false, Contents.cards ["8R"], ""⟩,
    ⟨CardType.stack, false, Contents.cards ["7B"], ""⟩], 2, 0, 100, [], 0⟩

end Game

/-! ## Theorems -/

/-- C1: two boards that differ only in the left-to-right ordering of
their stacks (their stack lists are permutations of each other) have
identical canonical hashes, since the per-stack hash strings are
sorted lexicographically before concatenation. -/
theorem C1_hash_stack_order_invariant (g1 g2 : Game)
    (h : g1.stacks'.Perm g2.stacks') : g1.hash = g2.hash := by
  unfold Game.hash
  have hp : (g1.stacks'.map (fun s => s.hash ++ "/")).Perm
      (g2.stacks'.map (fun s => s.hash ++ "/")) := h.map _
  have e := List.eq_of_perm_of_sorted
    (((List.perm_insertionSort (fun a b : String => a ≤ b) _).trans hp).trans
      (List.perm_insertionSort (fun a b : String => a ≤ b) _).symm)
    (List.sorted_insertionSort (fun a b : String => a ≤ b) _)
    (List.sorted_insertionSort (fun a b : String => a ≤ b) _)
  rw [e]

/-- Witness for C1 at a concrete pair of boards that differ only in
stack order. -/
theorem C1_hash_stack_order_invariant_witness :
    Game.gSmall.hash = Game.gSmallShuffled.hash :=
  C1_hash_stack_order_invariant Game.gSmall Game.gSmallShuffled (by decide)

/-- C2: over valid card codes, `compatible top bottom` holds iff both
are face cards of the same suit, or both are numeric with bottom one
less than top and of the other color; face pairs are symmetric and
numeric compatibility is order-sensitive. -/
theorem C2_compatible_characterization :
    ∀ top ∈ Game.allCards, ∀ bottom ∈ Game.allCards,
      (Stack.compatible top bottom = true ↔
        ((top ∈ Stack.face_cards ∧ bottom ∈ Stack.face_cards ∧
          Game.suitOf top = Game.suitOf bottom) ∨
         (top ∈ Game.numericCodes ∧ bottom ∈ Game.numericCodes ∧
          Game.valueOf bottom + 1 = Game.valueOf top ∧
          Game.colorOf top ≠ Game.colorOf bottom))) ∧
      (top ∈ Stack.face_cards → bottom ∈ Stack.face_cards →
        Stack.compatible top bottom = Stack.compatible bottom top) ∧
      (top ∈ Game.numericCodes → bottom ∈ Game.numericCodes →
        Stack.compatible top bottom = true → Stack.compatible bottom top = false) := by
  decide

/-- Witness for C2 at the concrete pair 8R over 7B. -/
theorem C2_compatible_characterization_witness :
    Stack.compatible "8R" "7B" = true :=
  ((C2_compatible_characterization "8R" (by decide) "7B" (by decide)).1).mpr (by decide)

/-- C7 (recording the code bug): the canonical hash of a board with a
collapsed stack is "SX[HH]/", and decoding that very encoding fails
(Python raises ValueError in `int("HH")`), so decode-encode round
tripping is impossible for boards containing collapsed stacks. -/
theorem C7_decode_collapsed_encoding_fails :
    Game.gOneCollapsed.hash = "SX[HH]/" ∧
    Game.exact_setup Game.gOneCollapsed.hash =
      Except.error "ValueError: invalid literal for int" := by
  constructor
  · decide
  · rfl

/-- C8 counterexample: on a depth-zero board with no moves, `is_dead`
returns true although the claim (which requires depth > 0) says it
should be false. -/
theorem C8_counterexample_depth_zero :
    ¬ (Game.gStuckRoot.is_dead = true ↔
       (Game.gStuckRoot.enumerate_moves = [] ∧ 0 < Game.gStuckRoot.depth)) := by
  decide

/-- C8 as amended: `is_dead` is true iff `enumerate_moves` is empty,
with no condition on the depth (the depth > 0 guard lives in the
caller `Game.solve`). -/
theorem C8_is_dead_iff_no_moves (g : Game) :
    g.is_dead = true ↔ g.enumerate_moves = [] := by
  simp [Game.is_dead, List.length_eq_zero]

/-- C9 counterexample: a fully collapsed board reports complete, but
the solver raises (the replay of the empty move history errors out)
instead of returning an empty-but-successful move list. -/
theorem C9_counterexample_complete_root :
    Game.gFullyCollapsed.is_complete = true ∧
    Game.global_solve Game.gFullyCollapsed 5 =
      Except.error "No moves for successful game solve?" := by
  exact ⟨by decide, rfl⟩

/-- C9 as amended: on any depth-zero complete board with an empty
move history, `global_solve` raises the "No moves for successful game
solve?" exception from `play_game` instead of returning an empty move
list; the outcome is still distinct from the unsolvable empty-list
return. -/
theorem C9_complete_root_raises (g : Game) (h0 : g.depth = 0)
    (hc : g.is_complete = true) (hh : g.move_history = [])
    (fuel : Nat) (hf : 0 < fuel) :
    Game.global_solve g fuel = Except.error "No moves for successful game solve?" := by
  cases fuel with
  | zero => exact absurd hf (by simp)
  | succ f =>
    simp [Game.global_solve, h0, Game.gsLoop, hc, hh, Game.play_game, Except.map]

/-- Witness for C9's amended statement at the fully collapsed
board. -/
theorem C9_complete_root_raises_witness :
    Game.global_solve Game.gFullyCollapsed 5 =
      Except.error "No moves for successful game solve?" :=
  C9_complete_root_raises Game.gFullyCollapsed rfl (by decide) rfl 5 (by decide)

/-- C10: a depth-zero board that is not complete and has no legal
moves makes `Game.solve` raise "Impossible to solve game" instead of
returning an empty or absent child set, and `global_solve` therefore
propagates that exception and never reaches the empty-list
unsolvable outcome on such an input. -/
theorem C10_stuck_root_raises (g : Game) (h0 : g.depth = 0)
    (hc : g.is_complete = false) (he : g.enumerate_moves = []) :
    g.solve = Except.error "Impossible to solve game" ∧
    ∀ fuel : Nat, 0 < fuel →
      Game.global_solve g fuel = Except.error "Impossible to solve game" := by
  have hsolve : g.solve = Except.error "Impossible to solve game" := by
    unfold Game.solve
    simp [h0, hc, he, List.mapM.loop]
  refine ⟨hsolve, ?_⟩
  intro fuel hf
  cases fuel with
  | zero => exact absurd hf (by simp)
  | succ f =>
    simp [Game.global_solve, h0, Game.gsLoop, hc, hsolve]

/-- Witness for C10 at the concrete stuck depth-zero board. -/
theorem C10_stuck_root_raises_witness :
    Game.gStuckRoot.solve = Except.error "Impossible to solve game" ∧
    Game.global_solve Game.gStuckRoot 3 = Except.error "Impossible to solve game" := by
  have h := C10_stuck_root_raises Game.gStuckRoot rfl (by decide) (by decide)
  exact ⟨h.1, h.2 3 (by decide)⟩

/-- Moving any card under the collapsed sentinel "X" is incompatible
(the sentinel is not a two-character card code). -/
lemma compatible_X (y : String) : Stack.compatible "X" y = false := rfl

/-- A stack whose contents are the collapsed sentinel never accepts a
move, locked or not. -/
lemma is_move_to_legal_collapsed (s : Stack) (h : s.stack = Contents.collapsed)
    (card : List String) : s.is_move_to_legal card = false := by
  unfold Stack.is_move_to_legal
  by_cases hl : s.locked
  · simp [hl]
  · have hc : s.hasCards = true := by simp [Stack.hasCards, h]
    have hlast : s.lastCard = "X" := by simp [Stack.lastCard, h]
    cases hct : s.card_type
    · simp [hl, hct, hc, hlast, compatible_X]
    · simp [hl, hct, hc]

/-- Appending fails exactly when the move-to legality test fails. -/
lemma resolve_move_to_none_iff (s : Stack) (card : List String) :
    Stack.resolve_move_to s card = none ↔ s.is_move_to_legal card = false := by
  unfold Stack.resolve_move_to
  by_cases hleg : s.is_move_to_legal card = true
  · rw [hleg]
    cases hs : s.stack with
    | collapsed => exact absurd (is_move_to_legal_collapsed s hs card ▸ hleg) (by simp)
    | cards l =>
      simp only [Bool.not_true, Bool.false_eq_true, if_false]
      constructor
      · intro hnone
        by_cases hcc : Stack.collapseCond (l ++ card) = true <;> simp [hcc] at hnone
      · intro hfalse
        exact absurd hfalse (by simp)
  · have hleg2 : s.is_move_to_legal card = false := by
      cases h : s.is_move_to_legal card
      · rfl
      · exact absurd h hleg
    simp [hleg2]

/-- On a legal append to open contents, the result is the appended
card list, collapsed and locked exactly when the collapse condition
fires on it. -/
lemma resolve_move_to_cards (s : Stack) (card : List String) (l : List String)
    (hs : s.stack = Contents.cards l) (hleg : s.is_move_to_legal card = true) :
    Stack.resolve_move_to s card = some (
      if Stack.collapseCond (l ++ card) then
        { s with locked := true, past_cards := (l ++ card).headD "",
                 stack := Contents.collapsed }
      else { s with stack := Contents.cards (l ++ card) }) := by
  unfold Stack.resolve_move_to
  rw [hleg]
  simp only [Bool.not_true, Bool.false_eq_true, if_false, hs]
  split <;> rfl

/-- The collapse condition holds exactly for four copies of one face
card. -/
lemma collapseCond_iff (l : List String) :
    Stack.collapseCond l = true ↔ ∃ h, l = [h, h, h, h] ∧ h ∈ Stack.face_cards := by
  cases l with
  | nil => simp [Stack.collapseCond]
  | cons h t =>
    unfold Stack.collapseCond
    simp only [Bool.and_eq_true, beq_iff_eq, List.elem_iff]
    constructor
    · rintro ⟨⟨-, heq⟩, hmem⟩
      exact ⟨h, heq, hmem⟩
    · rintro ⟨h2, heq, hmem⟩
      have hh : h = h2 := by
        have := congrArg (fun l => l.headD "") heq
        simpa using this
      subst hh
      exact ⟨⟨by simpa using congrArg List.length heq, heq⟩, hmem⟩

/-- A locked stack admits no operation: both legality tests fail and
both resolvers raise. -/
lemma locked_stack_frozen (s : Stack) (hl : s.locked = true) :
    (∀ card, s.is_move_to_legal card = false) ∧ s.is_move_from_legal = false ∧
    (∀ card, Stack.resolve_move_to s card = none) ∧
    (∀ m, Stack.resolve_move_from s m = none) := by
  have hto : ∀ card, s.is_move_to_legal card = false := by
    intro card
    unfold Stack.is_move_to_legal
    simp [hl]
  have hfrom : s.is_move_from_legal = false := by
    unfold Stack.is_move_from_legal
    simp [hl]
  refine ⟨hto, hfrom, fun card => (resolve_move_to_none_iff s card).mpr (hto card), ?_⟩
  intro m
  unfold Stack.resolve_move_from
  simp [hfrom]

/-- C3: appending a run to a stack fails exactly when `isMoveToLegal`
is false; a legal append yields the appended contents, collapsing —
locking the stack, erasing the cards and remembering the rank —
exactly when the resulting content is four copies of one face card;
and a locked (hence any collapsed) stack admits no further
operation. -/
theorem C3_append_run_collapse (s : Stack) (card : List String) :
    (Stack.resolve_move_to s card = none ↔ s.is_move_to_legal card = false) ∧
    (∀ l, s.stack = Contents.cards l → s.is_move_to_legal card = true →
      Stack.resolve_move_to s card = some (
        if Stack.collapseCond (l ++ card) then
          { s with locked := true, past_cards := (l ++ card).headD "",
                   stack := Contents.collapsed }
        else { s with stack := Contents.cards (l ++ card) })) ∧
    (∀ l2 : List String,
      Stack.collapseCond l2 = true ↔ ∃ h, l2 = [h, h, h, h] ∧ h ∈ Stack.face_cards) ∧
    (s.locked = true →
      s.is_move_to_legal card = false ∧ s.is_move_from_legal = false ∧
      Stack.resolve_move_to s card = none ∧
      ∀ m, Stack.resolve_move_from s m = none) :=
  ⟨resolve_move_to_none_iff s card,
   fun l hs hleg => resolve_move_to_cards s card l hs hleg,
   collapseCond_iff,
   fun hl =>
     ⟨(locked_stack_frozen s hl).1 card, (locked_stack_frozen s hl).2.1,
      (locked_stack_frozen s hl).2.2.1 card, (locked_stack_frozen s hl).2.2.2⟩⟩

/-- Witness for C3: appending a fourth HH to three HHs collapses the
stack into the locked marker remembering the rank. -/
theorem C3_append_run_collapse_witness :
    Stack.resolve_move_to Game.threeHearts ["HH"] =
      some ⟨CardType.stack, true, Contents.collapsed, "HH"⟩ := by
  have h := (C3_append_run_collapse Game.threeHearts ["HH"]).2.1
    ["HH", "HH", "HH"] rfl (by decide)
  rw [h]
  rfl

/-- The top run is never longer than the stack. -/
lemma runRev_length_le (r : List String) : (Stack.runRev r).length ≤ r.length := by
  induction r with
  | nil => simp [Stack.runRev]
  | cons a t ih =>
    cases t with
    | nil => simp [Stack.runRev]
    | cons b rest =>
      unfold Stack.runRev
      by_cases h : Stack.compatible b a = true
      · simp only [h, Bool.not_true, Bool.false_eq_true, if_false, List.length_cons]
        exact Nat.succ_le_succ ih
      · have h2 : Stack.compatible b a = false := by
          cases hh : Stack.compatible b a
          · rfl
          · exact absurd hh h
        simp [h2]

/-- The trapped-card count of the scoring loop equals the stack
length minus the top-run length. -/
lemma trappedRev_eq (r : List String) :
    Stack.trappedRev r = r.length - (Stack.runRev r).length := by
  induction r with
  | nil => rfl
  | cons a t ih =>
    cases t with
    | nil => rfl
    | cons b rest =>
      unfold Stack.trappedRev Stack.runRev
      by_cases h : Stack.compatible b a = true
      · simp only [h, Bool.not_true, Bool.false_eq_true, if_false, List.length_cons,
          Nat.succ_sub_succ]
        rw [ih]
        rfl
      · have h2 : Stack.compatible b a = false := by
          cases hh : Stack.compatible b a
          · rfl
          · exact absurd hh h
        simp [h2]

/-- One step of the scoring loop adds exactly the specification's
per-stack score: the accumulator-resetting branch for a finished
five-card number stack is unreachable because `is_complete` already
caught that shape. -/
lemma score_step_eq (acc : Int) (s : Stack) :
    Game.score_step acc s = acc + Game.scoreSpec s := by
  unfold Game.score_step Game.scoreSpec
  by_cases hcomp : s.is_complete = true
  · simp [hcomp]
  · have hcomp2 : s.is_complete = false := by
      cases hh : s.is_complete
      · rfl
      · exact absurd hh hcomp
    cases hct : s.card_type with
    | freecell => simp [hcomp2, hct]
    | stack =>
      by_cases hhc : s.hasCards = true
      · cases hs : s.stack with
        | collapsed => exact absurd (by simp [Stack.is_complete, hs]) hcomp
        | cards l =>
          have hpat : (l == ["0R", "9B", "8R", "7B", "6R"] ||
                       l == ["0B", "9R", "8B", "7R", "6B"]) = false := by
            have := hcomp2
            rw [Stack.is_complete, hs] at this
            exact this
          simp only [hcomp2, Bool.false_eq_true, if_false, hct, hhc, Bool.and_self,
            beq_self_eq_true, Bool.and_true, Bool.true_and, if_true, hs, hpat,
            Bool.and_false, Bool.not_true]
          rw [Stack.num_cards_trapped, trappedRev_eq (l.reverse), List.length_reverse]
          ring
      · have hhc2 : s.hasCards = false := by
          cases hh : s.hasCards
          · rfl
          · exact absurd hh hhc
        simp [hcomp2, hct, hhc2]

/-- C6: the computed score is the sum over the stacks of the
specified per-stack contribution: 20 for a complete or collapsed
stack, 10 for an empty unconstrained stack, 5 minus the number of
cards trapped below the first top-run break for other non-empty
unconstrained stacks, and 0 for incomplete single-card-capacity
stacks. -/
theorem C6_score_is_stack_sum (g : Game) :
    Game.get_score g true = (g.stacks'.map Game.scoreSpec).sum := by
  unfold Game.get_score
  have hcond : (decide (g.score ≠ 0) && !true) = false := by simp
  rw [hcond]
  simp only [Bool.false_eq_true, if_false]
  unfold Game.computed_score
  have key : ∀ (ss : List Stack) (acc : Int),
      ss.foldl Game.score_step acc = acc + (ss.map Game.scoreSpec).sum := by
    intro ss
    induction ss with
    | nil => intro acc; simp
    | cons s t ih =>
      intro acc
      simp only [List.foldl_cons, List.map_cons, List.sum_cons, ih, score_step_eq]
      ring
  simpa using key g.stacks' 0

/-- Membership in one destination block of the enumeration. -/
lemma mem_enumBlock (g : Game) (i : Nat) (p : Nat × Nat) :
    p ∈ Game.enumBlock g i ↔
      (g.stacks'.getD i default).locked = false ∧ p.2 = i ∧
      p.1 < g.stacks'.length ∧ Game.moveOk g i p.1 = true := by
  unfold Game.enumBlock
  by_cases hlock : (g.stacks'.getD i default).locked = true
  · rw [if_pos hlock]
    simp only [List.not_mem_nil, false_iff]
    rintro ⟨hf, -⟩
    exact absurd (hlock.symm.trans hf) (by simp)
  · have hl2 : (g.stacks'.getD i default).locked = false := by
      cases hh : (g.stacks'.getD i default).locked
      · rfl
      · exact absurd hh hlock
    rw [if_neg hlock]
    simp only [List.mem_filterMap, List.mem_range, hl2, true_and]
    constructor
    · rintro ⟨j, hj, hif⟩
      by_cases hok : Game.moveOk g i j = true
      · rw [if_pos hok] at hif
        obtain rfl := Option.some.inj hif
        exact ⟨rfl, hj, hok⟩
      · rw [if_neg hok] at hif
        exact absurd hif (by simp)
    · rintro ⟨h2, h1, hok⟩
      refine ⟨p.1, h1, ?_⟩
      rw [if_pos hok, ← h2]

/-- Membership in the full enumeration. -/
lemma mem_enumerate (g : Game) (j i : Nat) :
    (j, i) ∈ g.enumerate_moves ↔
      i < g.stacks'.length ∧ (g.stacks'.getD i default).locked = false ∧
      j < g.stacks'.length ∧ Game.moveOk g i j = true := by
  unfold Game.enumerate_moves
  simp only [List.mem_flatMap, List.mem_range]
  constructor
  · rintro ⟨a, ha, hmem⟩
    rw [mem_enumBlock] at hmem
    obtain ⟨hl, h2, h1, hok⟩ := hmem
    simp only at h2 h1
    subst h2
    exact ⟨ha, hl, h1, hok⟩
  · rintro ⟨hi, hl, hj, hok⟩
    exact ⟨i, hi, (mem_enumBlock g i (j, i)).mpr ⟨hl, rfl, hj, hok⟩⟩

/-- The per-pair test unfolded into the specification's four
conditions. -/
lemma moveOk_iff (g : Game) (i j : Nat) :
    Game.moveOk g i j = true ↔
      j ≠ i ∧ g.move_history.getLast? ≠ some (i, j) ∧
      (g.stacks'.getD j default).is_move_from_legal = true ∧
      (g.stacks'.getD i default).is_move_to_legal
        [((g.stacks'.getD j default).which_cards_moving).headD ""] = true := by
  unfold Game.moveOk
  simp [Bool.and_eq_true, Bool.not_eq_true', beq_eq_false_iff_ne]
  tauto

/-- Every pair produced by a destination block carries that
destination as its second component. -/
lemma enumBlock_snd {g : Game} {i : Nat} {p : Nat × Nat}
    (hp : p ∈ Game.enumBlock g i) : p.2 = i :=
  ((mem_enumBlock g i p).mp hp).2.1

/-- Within one destination block, sources appear in increasing
order. -/
lemma pairwise_enumBlock (g : Game) (i : Nat) :
    List.Pairwise (fun p q : Nat × Nat => p.1 < q.1) (Game.enumBlock g i) := by
  unfold Game.enumBlock
  split
  · exact List.Pairwise.nil
  · refine List.Pairwise.filterMap _ ?_ (List.pairwise_lt_range _)
    intro a b hab x hx y hy
    split at hx
    · obtain rfl := Option.mem_some_iff.mp hx
      split at hy
      · obtain rfl := Option.mem_some_iff.mp hy
        exact hab
      · exact absurd hy (by simp)
    · exact absurd hx (by simp)

/-- The enumeration is ordered by destination index, then source
index. -/
lemma pairwise_enumerate (g : Game) :
    List.Pairwise (fun p q : Nat × Nat => p.2 < q.2 ∨ (p.2 = q.2 ∧ p.1 < q.1))
      g.enumerate_moves := by
  unfold Game.enumerate_moves
  rw [List.pairwise_flatMap]
  constructor
  · intro a _
    exact (pairwise_enumBlock g a).imp_of_mem
      (fun hx hy hlt => Or.inr ⟨(enumBlock_snd hx).trans (enumBlock_snd hy).symm, hlt⟩)
  · refine (List.pairwise_lt_range _).imp ?_
    intro a b hab x hx y hy
    exact Or.inl (by rw [enumBlock_snd hx, enumBlock_snd hy]; exact hab)

/-- C5: `enumerate_moves` contains exactly the (source, destination)
pairs with distinct indices, unlocked destination, not undoing the
immediately preceding recorded move, a movable source and a
destination that accepts the source run's bottom card as a single
card; the pairs are listed by destination index, then source
index. -/
theorem C5_enumerate_moves_spec (g : Game) :
    (∀ j i : Nat, (j, i) ∈ g.enumerate_moves ↔
      (i < g.stacks'.length ∧ j < g.stacks'.length ∧ j ≠ i ∧
       (g.stacks'.getD i default).locked = false ∧
       g.move_history.getLast? ≠ some (i, j) ∧
       (g.stacks'.getD j default).is_move_from_legal = true ∧
       (g.stacks'.getD i default).is_move_to_legal
         [((g.stacks'.getD j default).which_cards_moving).headD ""] = true)) ∧
    List.Pairwise (fun p q : Nat × Nat => p.2 < q.2 ∨ (p.2 = q.2 ∧ p.1 < q.1))
      g.enumerate_moves := by
  refine ⟨?_, pairwise_enumerate g⟩
  intro j i
  rw [mem_enumerate, moveOk_iff]
  tauto

/-- Witness for C5: the move of the 7B onto the 8R is enumerated on
the small board. -/
theorem C5_enumerate_moves_spec_witness :
    ((0 : Nat), (1 : Nat)) ∈ Game.gSmall.enumerate_moves :=
  ((C5_enumerate_moves_spec Game.gSmall).1 0 1).mpr (by decide)

/-- A successful removal takes cards from an open, well-formed stack
and leaves exactly the complement: removed plus remaining equals the
original count. -/
lemma cardCount_resolve_move_from (s si : Stack) (ms : Nat) (cards : List String)
    (hwfs : Game.StackWF s)
    (h : Stack.resolve_move_from s ms = some (cards, si)) :
    Game.cardCount si + cards.length = Game.cardCount s := by
  unfold Stack.resolve_move_from at h
  by_cases hleg : s.is_move_from_legal = true
  · rw [hleg] at h
    simp only [Bool.not_true, Bool.false_eq_true, if_false] at h
    have hnl : s.locked = false := by
      unfold Stack.is_move_from_legal at hleg
      simp only [Bool.and_eq_true, Bool.not_eq_true'] at hleg
      exact hleg.1
    cases hs : s.stack with
    | collapsed => exact absurd ((hwfs hs).symm.trans hnl) (by simp)
    | cards l =>
      rw [hs] at h
      simp only [Option.some.injEq, Prod.mk.injEq] at h
      obtain ⟨hc, hsi⟩ := h
      have hkmle : (if (ms == 0) = true then (Stack.runRev l.reverse).reverse
          else l.drop (l.length - ms)).length ≤ l.length := by
        split
        · rw [List.length_reverse]
          have := runRev_length_le l.reverse
          simpa using this
        · rw [List.length_drop]
          omega
      rw [← hsi, ← hc]
      simp only [Game.cardCount, hs, List.length_take]
      omega
  · have hleg2 : s.is_move_from_legal = false := by
      cases hh : s.is_move_from_legal
      · rfl
      · exact absurd hh hleg
    rw [hleg2] at h
    exact absurd h (by simp)

/-- A successful append puts the whole run on the destination: the
new count (4 on a collapse) is the old count plus the run length. -/
lemma cardCount_resolve_move_to (s sj : Stack) (cards : List String)
    (h : Stack.resolve_move_to s cards = some sj) :
    Game.cardCount sj = Game.cardCount s + cards.length := by
  unfold Stack.resolve_move_to at h
  by_cases hleg : s.is_move_to_legal cards = true
  · rw [hleg] at h
    simp only [Bool.not_true, Bool.false_eq_true, if_false] at h
    cases hs : s.stack with
    | collapsed => rw [hs] at h; exact absurd h (by simp)
    | cards dl =>
      rw [hs] at h
      simp only [] at h
      by_cases hcc : Stack.collapseCond (dl ++ cards) = true
      · rw [if_pos hcc] at h
        obtain rfl := (Option.some.inj h).symm
        obtain ⟨x, hx, -⟩ := (collapseCond_iff (dl ++ cards)).mp hcc
        have hlen : dl.length + cards.length = 4 := by
          have := congrArg List.length hx
          simpa using this
        simp [Game.cardCount, hs, hlen]
      · rw [if_neg hcc] at h
        obtain rfl := (Option.some.inj h).symm
        simp [Game.cardCount, hs]
  · have hleg2 : s.is_move_to_legal cards = false := by
      cases hh : s.is_move_to_legal cards
      · rfl
      · exact absurd hh hleg
    rw [hleg2] at h
    exact absurd h (by simp)

/-- Replacing one entry of a stack list trades its card count for the
new entry's card count in the total. -/
lemma sum_map_set_cardCount (l : List Stack) (i : Nat) (x : Stack) (hi : i < l.length) :
    ((l.set i x).map Game.cardCount).sum + Game.cardCount (l.getD i default) =
      (l.map Game.cardCount).sum + Game.cardCount x := by
  induction l generalizing i with
  | nil => simp at hi
  | cons a t ih =>
    cases i with
    | zero =>
      simp only [List.set_cons_zero, List.map_cons, List.sum_cons, List.getD_cons_zero]
      omega
    | succ n =>
      have hn : n < t.length := by simpa using hi
      have hrec := ih n hn
      simp only [List.set_cons_succ, List.map_cons, List.sum_cons, List.getD_cons_succ]
      omega

/-- A successful `apply_move` decomposes into a successful removal,
a successful append, and the doubly-updated stack list. -/
lemma apply_move_ok (g g' : Game) (a b : Nat)
    (h : Game.apply_move g (a, b) = Except.ok g') :
    ∃ ms cards si sj,
      Stack.resolve_move_from (g.stacks'.getD a default) ms = some (cards, si) ∧
      Stack.resolve_move_to ((g.stacks'.set a si).getD b default) cards = some sj ∧
      g'.stacks' = (g.stacks'.set a si).set b sj := by
  unfold Game.apply_move at h
  simp only at h
  split at h
  · exact absurd h (by simp)
  · next cards si heq =>
    split at h
    · exact absurd h (by simp)
    · next sj heq2 =>
      refine ⟨_, cards, si, sj, heq, heq2, ?_⟩
      have hg := Except.ok.inj h
      rw [← hg]

/-- C4: any move taken from the enumeration, applied to a well-formed
board by removing a run from the source and appending it to the
destination, preserves the total card count (visible cards plus 4 per
collapsed stack). -/
theorem C4_move_conserves_count (g g' : Game) (m : Nat × Nat)
    (hm : m ∈ g.enumerate_moves) (hwf : Game.GameWF g)
    (happ : Game.apply_move g m = Except.ok g') :
    Game.boardCount g' = Game.boardCount g := by
  obtain ⟨a, b⟩ := m
  rw [mem_enumerate] at hm
  obtain ⟨hb, -, ha, hok⟩ := hm
  rw [moveOk_iff] at hok
  obtain ⟨hne, -⟩ := hok
  obtain ⟨ms, cards, si, sj, hrf, hrt, hst⟩ := apply_move_ok g g' a b happ
  have hsrcmem : g.stacks'.getD a default ∈ g.stacks' := by
    rw [List.getD_eq_getElem g.stacks' default ha]
    exact List.getElem_mem ha
  have h1 := cardCount_resolve_move_from _ _ _ _ (hwf _ hsrcmem) hrf
  have hdst : (g.stacks'.set a si).getD b default = g.stacks'.getD b default := by
    rw [List.getD_eq_getElem?_getD, List.getD_eq_getElem?_getD,
        List.getElem?_set_ne hne]
  rw [hdst] at hrt
  have h2 := cardCount_resolve_move_to _ _ _ hrt
  have hs1 := sum_map_set_cardCount g.stacks' a si ha
  have hs2 := sum_map_set_cardCount (g.stacks'.set a si) b sj
      (by rw [List.length_set]; exact hb)
  rw [hdst] at hs2
  unfold Game.boardCount
  rw [hst]
  omega

/-- Witness for C4: the 7B-onto-8R move on the small board keeps the
total card count. -/
theorem C4_move_conserves_count_witness :
    Game.boardCount Game.gSmallMoved = Game.boardCount Game.gSmall :=
  C4_move_conserves_count Game.gSmall Game.gSmallMoved (0, 1)
    (by decide) (by unfold Game.GameWF Game.StackWF; decide) rfl

end Exa
